import Mathlib

/-!
Verification of the master-duration accounting and session-logging logic of the
smart-swarm monitor (device process raspi_code.py, server process
raspi_server_code.py). Timestamps and durations are modelled as integer
microsecond counts, text as lists of characters.
-/

/-- Python str.strip considers these whitespace characters (the ones relevant
to this code base). -/
def charIsSpace (c : Char) : Bool :=
  c = ' ' || c = '\t' || c = '\n' || c = '\r'

/-- Model of Python str.strip: drop whitespace from both ends. -/
def pyStrip (s : List Char) : List Char :=
  ((s.dropWhile charIsSpace).reverse.dropWhile charIsSpace).reverse

/-- Model of Python str.split(sep) for a one-character separator: the list of
separated fields.  Always returns at least one field. -/
def splitOnChar (c : Char) : List Char → List (List Char)
  | [] => [[]]
  | x :: xs =>
    match splitOnChar c xs with
    | [] => [[]]
    | h :: t => if x = c then [] :: h :: t else (x :: h) :: t

/-- Joining with the separator, inverse of splitOnChar. -/
def intercalateChar (c : Char) : List (List Char) → List Char
  | [] => []
  | [p] => p
  | p :: q :: r => p ++ c :: intercalateChar c (q :: r)

/-- Accumulate one character of a decimal literal. -/
def digitsStep : Option Nat → Char → Option Nat
  | none, _ => none
  | some n, c => if c.isDigit then some (n * 10 + (c.toNat - 48)) else none

/-- Value of a nonempty all-digit string, none otherwise. -/
def digitsToNat (s : List Char) : Option Nat :=
  if s = [] then none else s.foldl digitsStep (some 0)

/-- Model of Python int(str): optional surrounding whitespace, optional sign,
then decimal digits; anything else raises ValueError (none here). -/
def pyInt (s : List Char) : Option Int :=
  match pyStrip s with
  | '-' :: rest => (digitsToNat rest).map (fun n => -(n : Int))
  | '+' :: rest => (digitsToNat rest).map (fun n => (n : Int))
  | t => (digitsToNat t).map (fun n => (n : Int))

/-- Model of Python str.lower (ASCII, as used for the is-master column). -/
def pyLower (s : List Char) : List Char :=
  s.map Char.toLower

/-- Gregorian leap-year test. -/
def isLeapYear (y : Int) : Bool :=
  (y % 4 = 0 && y % 100 ≠ 0) || y % 400 = 0

/-- Number of days in a month of a given year. -/
def daysInMonth (y m : Int) : Int :=
  if m = 2 then (if isLeapYear y then 29 else 28)
  else if m = 4 || m = 6 || m = 9 || m = 11 then 30
  else 31

/-- Days from 1970-01-01 to the given civil date (valid for positive years). -/
def daysFromCivil (y m d : Int) : Int :=
  let yy := if m ≤ 2 then y - 1 else y
  let era := (if 0 ≤ yy then yy else yy - 399) / 400
  let yoe := yy - era * 400
  let mp := if 2 < m then m - 3 else m + 9
  let doy := (153 * mp + 2) / 5 + d - 1
  let doe := yoe * 365 + yoe / 4 - yoe / 100 + doy
  era * 146097 + doe - 719468

/-- Timestamps and durations are integers counting microseconds.  The Python
sources use float seconds; every value these claims touch (ISO 8601 strings
emitted by datetime.isoformat carry at most six fractional digits) is exactly
representable at microsecond resolution, and all the duration arithmetic in
the sources is addition, subtraction and comparison, which the scaling by
usPerSec preserves. -/
def usPerSec : Int := 1000000

/-- A whole number of seconds, in microseconds. -/
def secs (n : Int) : Int := n * usPerSec

/-- Fractional-second suffix (1 to 6 digits) in microseconds. -/
def parseIsoFrac (s : List Char) : Option Int :=
  if s = [] || 6 < s.length then none
  else (digitsToNat s).map (fun n => (n : Int) * 10 ^ (6 - s.length))

/-- Seconds field SS or SS.ffffff of an ISO 8601 time, in microseconds. -/
def parseIsoSeconds (s : List Char) : Option Int :=
  match splitOnChar '.' s with
  | [ss] =>
    if ss.length = 2 then
      (digitsToNat ss).bind (fun n => if n < 60 then some (secs (n : Int)) else none)
    else none
  | [ss, fs] =>
    if ss.length = 2 then
      (digitsToNat ss).bind (fun n =>
        if n < 60 then (parseIsoFrac fs).map (fun q => secs (n : Int) + q) else none)
    else none
  | _ => none

/-- Time part HH:MM, HH:MM:SS or HH:MM:SS.ffffff as microseconds in the day. -/
def parseIsoTime (s : List Char) : Option Int :=
  match splitOnChar ':' s with
  | [hs, ms] =>
    if hs.length = 2 && ms.length = 2 then
      match digitsToNat hs, digitsToNat ms with
      | some h, some m =>
        if h < 24 && m < 60 then some (secs ((h : Int) * 3600 + (m : Int) * 60))
        else none
      | _, _ => none
    else none
  | [hs, ms, ss] =>
    if hs.length = 2 && ms.length = 2 then
      match digitsToNat hs, digitsToNat ms, parseIsoSeconds ss with
      | some h, some m, some sec =>
        if h < 24 && m < 60 then
          some (secs ((h : Int) * 3600 + (m : Int) * 60) + sec)
        else none
      | _, _, _ => none
    else none
  | _ => none

/-- Model of the date part YYYY-MM-DD of an ISO 8601 string as days since the
epoch; none on malformed input. -/
def parseIsoDate (s : List Char) : Option Int :=
  match splitOnChar '-' s with
  | [ys, ms, ds] =>
    if ys.length = 4 && ms.length = 2 && ds.length = 2 then
      match digitsToNat ys, digitsToNat ms, digitsToNat ds with
      | some y, some m, some d =>
        if 1 ≤ (m : Int) && (m : Int) ≤ 12 && 1 ≤ (d : Int) &&
            (d : Int) ≤ daysInMonth (y : Int) (m : Int) then
          some (daysFromCivil (y : Int) (m : Int) (d : Int))
        else none
      | _, _, _ => none
    else none
  | _ => none

/-- Model of Python datetime.fromisoformat(s).timestamp(), restricted to the
formats datetime.isoformat emits and interpreted in UTC, in microseconds.
Durations in this development are differences of such timestamps, so the
constant local-time offset that CPython would add cancels and is omitted. -/
def parseIso (s : List Char) : Option Int :=
  match splitOnChar 'T' s with
  | [d] => (parseIsoDate d).map (fun days => days * 86400 * usPerSec)
  | [d, t] =>
    match parseIsoDate d, parseIsoTime t with
    | some days, some time => some (days * 86400 * usPerSec + time)
    | _, _ => none
  | _ => none

/-- One event of the swarm telemetry stream: the dictionaries that
raspi_code.py appends to graph_data_unified and session_data and that
raspi_server_code.py receives inside the graph_data payload.  The timestamp
is epoch microseconds.  The device-side dictionaries do not store the display
name; it is a function of the address (ip_led_map), so carrying it in the one
record type is harmless and matches the server-side points. -/
structure DataPoint where
  timestamp : Int
  ip : String
  name : String
  value : Int
  is_master : Bool
deriving DecidableEq

/-- State threaded through update_master_duration in raspi_code.py: the
accumulated per-node durations, last_master and last_time. -/
abbrev UmdState := (String → Int) × Option String × Option Int

/-- One iteration of the loop in update_master_duration (raspi_code.py,
lines 534 to 541): events below the cutoff are skipped, non-master events are
ignored, a master event is credited to its node when the previous master
sample came from the same node, and last_master and last_time are then
unconditionally reset to the current event. -/
def umdStep (cutoff : Int) (st : UmdState) (p : DataPoint) : UmdState :=
  if cutoff ≤ p.timestamp then
    if p.is_master then
      match st.2.1, st.2.2 with
      | some m, some t =>
        if m = p.ip then
          ((fun ip => if ip = p.ip then st.1 ip + (p.timestamp - t) else st.1 ip),
            some p.ip, some p.timestamp)
        else (st.1, some p.ip, some p.timestamp)
      | _, _ => (st.1, some p.ip, some p.timestamp)
    else st
  else st

/-- The scan of update_master_duration before its final open interval. -/
def update_master_duration_fold (events : List DataPoint) (cutoff : Int) :
    UmdState :=
  events.foldl (umdStep cutoff) ((fun _ => 0), none, none)

/-- Model of update_master_duration (raspi_code.py, lines 518 to 545) as a
pure function: master_duration_data is reset to zero for every node, the
session events are scanned with cutoff_time equal to the session start, and
the last master (when present) is finally credited with the still-open
interval up to current_time. -/
def update_master_duration (events : List DataPoint) (cutoff now : Int) :
    String → Int :=
  match update_master_duration_fold events cutoff with
  | (acc, some m, some t) => fun ip => if ip = m then acc ip + (now - t) else acc ip
  | (acc, _, _) => acc

/-- Python truthiness of the Optional[float] last_time in
raspi_server_code.py: None and 0.0 are falsy. -/
def pyTruthyTime : Option Int → Bool
  | none => false
  | some t => decide (t ≠ 0)

/-- Python truthiness of the Optional[str] last_master_ip: None and the empty
string are falsy. -/
def pyTruthyStr : Option String → Bool
  | none => false
  | some s => decide (s ≠ "")

/-- One iteration of the loop in calculate_master_durations_from_buffer
(raspi_server_code.py, lines 200 to 209).  Unlike the device accumulator this
credits the interval between two consecutive master samples to the previous
master regardless of which node sent the new sample, and it tests last_time
with Python truthiness, so a previous sample at timestamp 0 is never
credited. -/
def cmdbStep (st : UmdState) (p : DataPoint) : UmdState :=
  if p.is_master then
    let acc :=
      if pyTruthyStr st.2.1 && pyTruthyTime st.2.2 then
        match st.2.1, st.2.2 with
        | some m, some t => fun ip => if ip = m then st.1 ip + (p.timestamp - t) else st.1 ip
        | _, _ => st.1
      else st.1
    (acc, some p.ip, some p.timestamp)
  else st

/-- Model of calculate_master_durations_from_buffer (raspi_server_code.py,
lines 194 to 218) as a pure function of the session buffer, the session start
time and the clock reading taken for the final open interval.  The result is
the zero-defaulted dictionary master_durations (its consumers read it with
.get(ip, 0.0)). -/
def calculate_master_durations_from_buffer (points : List DataPoint)
    (session_start : Option Int) (now : Int) : String → Int :=
  match points.foldl cmdbStep ((fun _ => 0), none, none) with
  | (acc, lm, lt) =>
    if pyTruthyStr lm && pyTruthyTime lt && pyTruthyTime session_start then
      match lm, lt with
      | some m, some t => fun ip => if ip = m then acc ip + (now - t) else acc ip
      | _, _ => acc
    else acc

/-- State threaded through the duration loop of analyze_log_file: per-node
duration, per-node count, last_master_ip, last_time. -/
abbrev PassState := (String → Int) × (String → Nat) × Option String × Option Int

/-- One iteration of the duration loop of analyze_log_file
(raspi_server_code.py, lines 295 to 303): the same same-node pairwise credit
as the device accumulator, except that last_time is tested with Python
truthiness.  There is no final open-interval credit in analyze_log_file. -/
def passStep (st : PassState) (p : DataPoint) : PassState :=
  if p.is_master then
    match st.2.2.1, st.2.2.2 with
    | some m, some t =>
      if m = p.ip ∧ t ≠ 0 then
        ((fun ip => if ip = p.ip then st.1 ip + (p.timestamp - t) else st.1 ip),
          (fun ip => if ip = p.ip then st.2.1 ip + 1 else st.2.1 ip),
          some p.ip, some p.timestamp)
      else (st.1, st.2.1, some p.ip, some p.timestamp)
    | _, _ => (st.1, st.2.1, some p.ip, some p.timestamp)
  else st

/-- The duration computation of analyze_log_file over already-parsed points. -/
def analyzeDurationsPass (pts : List DataPoint) : PassState :=
  pts.foldl passStep ((fun _ => 0), (fun _ => 0), none, none)

/-- The last master sample of an event sequence (node and timestamp), the
state both accumulators hold after their scan. -/
def lastMasterSample (pts : List DataPoint) : Option (String × Int) :=
  pts.foldl (fun st p => if p.is_master then some (p.ip, p.timestamp) else st) none

/-- The final open interval of the section 4.1 algorithm: the time from the
last master sample to now, credited to that node. -/
def openIntervalCredit (pts : List DataPoint) (now : Int) (ip : String) : Int :=
  match lastMasterSample pts with
  | some (m, t) => if ip = m then now - t else 0
  | none => 0

/-- Parser state of analyze_log_file: whether the header row has been seen,
the data points in file order, and the all_nodes dictionary in first-sighting
order. -/
structure ALState where
  inData : Bool
  points : List DataPoint
  all_nodes : List (String × String)
deriving DecidableEq

/-- One line of the reading loop of analyze_log_file (raspi_server_code.py,
lines 236 to 276): strip the line; skip comments and blank lines; a line
starting with the literal header turns the data section on; inside the data
section a line containing a comma is split, and if it has at least five
fields whose value parses as an int and whose timestamp parses as an ISO
date-time, a point is recorded (fields five and beyond are ignored); rows
failing any parse are discarded. -/
def processLine (st : ALState) (line : List Char) : ALState :=
  let s := pyStrip line
  if List.isPrefixOf "#".toList s ∨ s = [] then st
  else if List.isPrefixOf "timestamp,".toList s then { st with inData := true }
  else if st.inData ∧ ',' ∈ s then
    let parts := splitOnChar ',' s
    if 5 ≤ parts.length then
      match pyInt (parts.getD 3 []) with
      | none => st
      | some v =>
        match parseIso (parts.getD 0 []) with
        | none => st
        | some ts =>
          { inData := st.inData,
            points := st.points ++
              [⟨ts, String.mk (parts.getD 1 []), String.mk (parts.getD 2 []), v,
                pyLower (parts.getD 4 []) == "true".toList⟩],
            all_nodes :=
              if st.all_nodes.any (fun q => q.1 == String.mk (parts.getD 1 [])) then
                st.all_nodes
              else st.all_nodes ++
                [(String.mk (parts.getD 1 []), String.mk (parts.getD 2 []))] }
    else st
  else st

/-- Insert a point into a list sorted by timestamp, after any point with an
equal or smaller timestamp (so the overall sort is stable, like the Python
list.sort used on data_points). -/
def insertByTs (p : DataPoint) : List DataPoint → List DataPoint
  | [] => [p]
  | q :: qs => if p.timestamp < q.timestamp then p :: q :: qs else q :: insertByTs p qs

/-- Stable sort of the parsed points by timestamp. -/
def sortByTs (l : List DataPoint) : List DataPoint :=
  l.foldl (fun acc p => insertByTs p acc) []

/-- The value analyze_log_file returns on success.  The source renders
start_time and end_time back through datetime.isoformat; that rendering is a
function of the timestamps kept here, so it is omitted.  master_durations
lists, in all_nodes order, each node with a positive duration together with
its name, duration and credited-interval count. -/
structure Analysis where
  data_points : List DataPoint
  master_durations : List (String × String × Int × Nat)
  start_time : Int
  end_time : Int
  duration : Int
  total_points : Nat
  num_masters : Nat
deriving DecidableEq

/-- Placeholder point; analyze_log_file only reads the head and last of a
list it has checked to be nonempty. -/
def defaultPoint : DataPoint := ⟨0, "", "", 0, false⟩

/-- Model of analyze_log_file (raspi_server_code.py, lines 224 to 328) on the
lines of the file: parse the rows, fail (None) when no data point was
recovered, otherwise sort by timestamp, rerun the duration algorithm over the
recovered points and package the summary. -/
def analyze_log_file (lines : List (List Char)) : Option Analysis :=
  let st := lines.foldl processLine ⟨false, [], []⟩
  if st.points = [] then none
  else
    let pts := sortByTs st.points
    let pass := analyzeDurationsPass pts
    let md := st.all_nodes.filterMap (fun q =>
      if 0 < pass.1 q.1 then some (q.1, q.2, pass.1 q.1, pass.2.1 q.1) else none)
    some
      { data_points := pts
        master_durations := md
        start_time := (pts.headD defaultPoint).timestamp
        end_time := (pts.getLastD defaultPoint).timestamp
        duration := (pts.getLastD defaultPoint).timestamp -
          (pts.headD defaultPoint).timestamp
        total_points := pts.length
        num_masters := md.length }

/-- The duration analyze_log_file reports for a node: its entry in
master_durations, zero when the node is absent. -/
def analysisDurationOf (a : Analysis) (ip : String) : Int :=
  ((a.master_durations.find? (fun q => q.1 == ip)).map (fun q => q.2.2.1)).getD 0

/-- Outcome of the /api/logs/analyze endpoint: an HTTP error with its status
code and message, or the analysis. -/
inductive EndpointResult where
  | failure (code : Nat) (msg : String)
  | success (a : Analysis)
deriving DecidableEq

/-- Model of analyze_log_endpoint (raspi_server_code.py, lines 1229 to 1258)
after the filename has been resolved: an absent (or unreadable) file is the
404 branch taken before analyze_log_file runs, a readable file whose analysis
comes back None is the 500 branch, and otherwise the analysis is returned. -/
def analyze_log_endpoint (file : Option (List (List Char))) : EndpointResult :=
  match file with
  | none => .failure 404 "File not found"
  | some lines =>
    match analyze_log_file lines with
    | none => .failure 500 "Could not analyze log file"
    | some a => .success a

/-- The three configured nodes, the key set of ip_led_map in raspi_code.py.
The per-node dictionaries node_values, node_is_master and last_update_time
have exactly these keys. -/
inductive NodeId where
  | red
  | blue
  | green
deriving DecidableEq

/-- The ESP32 address of each node (ip_led_map keys). -/
def nodeIpStr : NodeId → String
  | .red => "192.168.137.35"
  | .blue => "192.168.137.34"
  | .green => "192.168.137.165"

/-- The display name of each node (ip_led_map values). -/
def nodeName : NodeId → String
  | .red => "RED"
  | .blue => "BLUE"
  | .green => "GREEN"

/-- Membership test of a sender address in ip_led_map. -/
def lookupNode (ip : String) : Option NodeId :=
  if ip = nodeIpStr .red then some .red
  else if ip = nodeIpStr .blue then some .blue
  else if ip = nodeIpStr .green then some .green
  else none

/-- The device-process state touched by the udp_listener loop of
raspi_code.py: the per-node dictionaries, the live ring buffer
graph_data_unified, the session buffer session_data, the rows written to the
open session log, the master set and running durations used when rendering a
row, the recording flag and graph_start_time.  Ring-buffer capacity eviction
(maxlen 1000) and the age-based pruning thread are outside the single
message step modelled here. -/
structure DevState where
  node_values : NodeId → Int
  node_is_master : NodeId → Bool
  last_update_time : NodeId → Option Int
  graph_data : List DataPoint
  session_data : List DataPoint
  log_rows : List DataPoint
  all_masters : List String
  master_duration_data : String → Int
  logging_active : Bool
  graph_start_time : Option Int

/-- The device state at process start. -/
def initDevState : DevState :=
  ⟨fun _ => 0, fun _ => false, fun _ => none, [], [], [], [], fun _ => 0,
    false, none⟩

/-- Model of log_data_point (raspi_code.py, lines 459 to 477): while a
session is active (the open log file exists exactly while logging_active
holds) the row is appended and, for a master row, the sender joins
all_masters_in_session.  Row rendering to text is a function of the point and
of state not changed here, so the row is kept as the point itself. -/
def dev_log_data_point (s : DevState) (p : DataPoint) : DevState :=
  if s.logging_active then
    { s with
      log_rows := s.log_rows ++ [p],
      all_masters :=
        if p.is_master then
          (if p.ip ∈ s.all_masters then s.all_masters else s.all_masters ++ [p.ip])
        else s.all_masters }
  else s

/-- The first stamping of graph_start_time (raspi_code.py, lines 765 to 769):
set on the first message from a known sender, untouched afterwards. -/
def noteGraphStart (s : DevState) (now : Int) : DevState :=
  if s.graph_start_time = none then { s with graph_start_time := some now } else s

/-- Model of one received datagram in udp_listener (raspi_code.py, lines 754
to 839), after decode and strip: unknown senders are dropped;
graph_start_time is set on the first message from a known sender; a
MASTER-prefixed message whose payload (the second colon-separated field)
parses as an int updates the sender's value, makes it the sole master,
stamps last_update_time, appends to the live buffer and, when recording, to
the session buffer and the log; SENSOR and LIGHT messages do the same except
that only the sender's master flag is cleared; a payload that fails to parse
raises ValueError inside the per-branch try and changes nothing further. -/
def process_udp_message (s : DevState) (sender : String) (msg : List Char)
    (now : Int) : DevState :=
  match lookupNode sender with
  | none => s
  | some k =>
    let s1 := noteGraphStart s now
    if List.isPrefixOf "MASTER:".toList msg then
      match pyInt ((splitOnChar ':' msg).getD 1 []) with
      | none => s1
      | some v =>
        let p : DataPoint := ⟨now, sender, nodeName k, v, true⟩
        let s2 := { s1 with
          node_values := fun j => if j = k then v else s1.node_values j,
          node_is_master := fun j => if j = k then true else false,
          last_update_time := fun j => if j = k then some now else s1.last_update_time j,
          graph_data := s1.graph_data ++ [p] }
        if s2.logging_active then
          dev_log_data_point { s2 with session_data := s2.session_data ++ [p] } p
        else s2
    else if List.isPrefixOf "SENSOR:".toList msg ∨ List.isPrefixOf "LIGHT:".toList msg then
      match pyInt ((splitOnChar ':' msg).getD 1 []) with
      | none => s1
      | some v =>
        let p : DataPoint := ⟨now, sender, nodeName k, v, false⟩
        let s2 := { s1 with
          node_values := fun j => if j = k then v else s1.node_values j,
          node_is_master := fun j => if j = k then false else s1.node_is_master j,
          last_update_time := fun j => if j = k then some now else s1.last_update_time j,
          graph_data := s1.graph_data ++ [p] }
        if s2.logging_active then
          dev_log_data_point { s2 with session_data := s2.session_data ++ [p] } p
        else s2
    else s1

/-- The dictionaries node_is_master may hold at most one true flag. -/
def atMostOneMaster (m : NodeId → Bool) : Prop :=
  ∀ a b, m a = true → m b = true → a = b

/-- A log file of the server process: its data rows (kept as points, the
textual rendering being a function of each point and of state not changed by
a row write) and the number of summary footers written into it. -/
structure SrvFile where
  rows : List DataPoint
  footers : Nat
deriving DecidableEq

/-- The server-process state touched by receive_data and the session
functions of raspi_server_code.py: the files already closed, the open file
(current_log_file, None between sessions), session_data_buffer,
all_masters_in_session, session_start_time and the logging_active flag of
latest_data. -/
structure SrvState where
  closedFiles : List SrvFile
  current : Option SrvFile
  buffer : List DataPoint
  masters : List String
  startTime : Option Int
  loggingActive : Bool
deriving DecidableEq

/-- The server state at process start. -/
def initSrvState : SrvState := ⟨[], none, [], [], none, false⟩

/-- Model of start_local_logging_session (raspi_server_code.py, lines 48 to
85): an open file is closed as it stands, with no footer; a fresh empty file
is opened; the session buffer, master set and start time are reset. -/
def start_local_logging_session (s : SrvState) (now : Int) : SrvState :=
  { closedFiles :=
      match s.current with
      | some f => s.closedFiles ++ [f]
      | none => s.closedFiles,
    current := some ⟨[], 0⟩,
    buffer := [],
    masters := [],
    startTime := some now,
    loggingActive := s.loggingActive }

/-- Model of stop_local_logging_session (raspi_server_code.py, lines 87 to
138): a no-op without an open file; otherwise one summary footer is written
and the file is closed. -/
def stop_local_logging_session (s : SrvState) : SrvState :=
  match s.current with
  | none => s
  | some f =>
    { s with
      closedFiles := s.closedFiles ++ [⟨f.rows, f.footers + 1⟩],
      current := none }

/-- Model of log_data_point_to_file (raspi_server_code.py, lines 140 to 174):
a no-op without an open file; otherwise the point enters the session buffer,
a master point joins all_masters_in_session, and one row is written. -/
def log_data_point_to_file (s : SrvState) (p : DataPoint) : SrvState :=
  match s.current with
  | none => s
  | some f =>
    { s with
      buffer := s.buffer ++ [p],
      masters :=
        if p.is_master then
          (if p.ip ∈ s.masters then s.masters else s.masters ++ [p.ip])
        else s.masters,
      current := some ⟨f.rows ++ [p], f.footers⟩ }

/-- The membership test receive_data runs against session_data_buffer before
logging a point: some already-buffered point has the same timestamp and
address. -/
def dedupHit (buf : List DataPoint) (p : DataPoint) : Bool :=
  buf.any (fun q => decide (q.timestamp = p.timestamp ∧ q.ip = p.ip))

/-- One point of the graph_data loop in receive_data (raspi_server_code.py,
lines 1143 to 1151): points already present by (timestamp, ip) are skipped,
the rest are logged. -/
def dedupLogStep (s : SrvState) (p : DataPoint) : SrvState :=
  if dedupHit s.buffer p then s else log_data_point_to_file s p

/-- One request to the /api/data POST endpoint, as receive_data dispatches
it: a button start or stop action drives the session machine and the
logging_active flag of latest_data; a snapshot payload first overwrites
latest_data (including its logging_active flag) and then, while logging is
active, runs the deduplicating log loop over its graph_data points. -/
inductive SrvOp where
  | trigStart (now : Int)
  | trigStop (now : Int)
  | payload (logActive : Bool) (points : List DataPoint)

/-- Model of receive_data (raspi_server_code.py, lines 1101 to 1159) for one
request. -/
def receive_data_step (s : SrvState) (op : SrvOp) : SrvState :=
  match op with
  | .trigStart now =>
    let s1 := start_local_logging_session s now
    { s1 with loggingActive := true }
  | .trigStop _ =>
    let s1 := stop_local_logging_session s
    { s1 with loggingActive := false }
  | .payload act pts =>
    let s1 := { s with loggingActive := act }
    if act then pts.foldl dedupLogStep s1 else s1

/-- The server state after a sequence of requests from process start. -/
def runServerOps (ops : List SrvOp) : SrvState :=
  ops.foldl receive_data_step initSrvState

/-- The pair of variables last_master and last_time, as both scans keep them,
seen as one optional pair: they are set together, so they are none together
or some together. -/
def toLMPair : Option (String × Int) → Option String × Option Int
  | none => (none, none)
  | some (m, t) => (some m, some t)

/-- The update both scans apply to last_master and last_time at one event. -/
def lmPairStep (q : Option String × Option Int) (p : DataPoint) :
    Option String × Option Int :=
  if p.is_master then (some p.ip, some p.timestamp) else q

/-- The event sequence of the section 8 interleaving example: node A (RED)
asserts master at t = 0s, node B (BLUE) at t = 5s, node A again at t = 9s. -/
def c1Events : List DataPoint :=
  [⟨secs 0, "192.168.137.35", "RED", 0, true⟩,
    ⟨secs 5, "192.168.137.34", "BLUE", 0, true⟩,
    ⟨secs 9, "192.168.137.35", "RED", 0, true⟩]

/-- A session holding a single master event, from RED at t = 1s. -/
def c2Events : List DataPoint :=
  [⟨secs 1, "192.168.137.35", "RED", 100, true⟩]

/-- The log file the device writes for the c2Events session (footer written
at the stop at t = 11s). -/
def c2Log : List (List Char) :=
  ["# Session started: 1970-01-01T00:00:01".toList,
    "timestamp,node_ip,node_name,sensor_value,is_master,master_duration_seconds,session_elapsed_seconds".toList,
    "1970-01-01T00:00:01,192.168.137.35,RED,100,True,0.00,0.00".toList,
    "# Session ended: 1970-01-01T00:00:11".toList,
    "# Total session duration: 10.00 seconds".toList,
    "# MASTER SUMMARY (Devices that became MASTER):".toList,
    "# IP Address,Name,Total Duration (seconds)".toList,
    "# 192.168.137.35,RED,10.00".toList]

/-- A log containing only the session comment and the header row. -/
def c6HeaderOnlyLog : List (List Char) :=
  ["# Session started: 1970-01-01T00:00:01".toList,
    "timestamp,node_ip,node_name,sensor_value,is_master,master_duration_seconds,session_elapsed_seconds".toList]

/-- Two file lines that the analyzer cannot tell apart for claim C7: equal
lines, or lines whose stripped comma-split fields agree on the first five
fields (everything the analyzer reads) and have at least seven fields (a data
row of the written format), so that they may differ in the sixth,
master_duration_seconds, field and beyond. -/
def c7LineRel (l1 l2 : List Char) : Prop :=
  l1 = l2 ∨
    ((splitOnChar ',' (pyStrip l1)).take 5 = (splitOnChar ',' (pyStrip l2)).take 5 ∧
      6 ≤ (splitOnChar ',' (pyStrip l1)).length ∧
      6 ≤ (splitOnChar ',' (pyStrip l2)).length)

/-- A two-row session log. -/
def c7Log1 : List (List Char) :=
  ["# Session started: 1970-01-01T00:00:01".toList,
    "timestamp,node_ip,node_name,sensor_value,is_master,master_duration_seconds,session_elapsed_seconds".toList,
    "1970-01-01T00:00:01,192.168.137.35,RED,100,True,0.00,0.00".toList,
    "1970-01-01T00:00:04,192.168.137.35,RED,90,True,3.00,3.00".toList]

/-- c7Log1 with the master_duration_seconds column of both data rows
replaced by unrelated values. -/
def c7Log2 : List (List Char) :=
  ["# Session started: 1970-01-01T00:00:01".toList,
    "timestamp,node_ip,node_name,sensor_value,is_master,master_duration_seconds,session_elapsed_seconds".toList,
    "1970-01-01T00:00:01,192.168.137.35,RED,100,True,77.12,0.00".toList,
    "1970-01-01T00:00:04,192.168.137.35,RED,90,True,always lie here,3.00".toList]

/-- The analysis of c7Log1, written out. -/
def c8Value : Analysis :=
  ⟨[⟨secs 1, "192.168.137.35", "RED", 100, true⟩,
      ⟨secs 4, "192.168.137.35", "RED", 90, true⟩],
    [("192.168.137.35", "RED", secs 3, 1)],
    secs 1, secs 4, secs 3, 2, 1⟩

/-- The keys receive_data deduplicates on: the (timestamp, address) pairs of
the session buffer. -/
def bufKeys (s : SrvState) : List (Int × String) :=
  s.buffer.map (fun q => (q.timestamp, q.ip))

/-- The claim C9 invariant: buffer keys are pairwise distinct and the open
file's rows are exactly the session buffer. -/
def c9Inv (s : SrvState) : Prop :=
  (bufKeys s).Nodup ∧ ∀ f, s.current = some f → f.rows = s.buffer

/-- The claim C5 invariant: every closed file carries at most one summary
footer, and the open file none yet. -/
def srvFooterInv (s : SrvState) : Prop :=
  (∀ f ∈ s.closedFiles, f.footers ≤ 1) ∧ ∀ f, s.current = some f → f.footers = 0

/-- C1: on the interleaved sequence (t=0s, A, master), (t=5s, B, master),
(t=9s, A, master), queried with window_start 0 and now 12s, the
master-duration accumulator update_master_duration credits A (RED) with 3
seconds, all of it the final open interval 12s - 9s, and B (BLUE) with
nothing: the t=0 to t=5 and t=5 to t=9 transitions change node, so neither
is credited. -/
theorem claim_C1 :
    update_master_duration c1Events 0 (secs 12) "192.168.137.35" = secs 3 ∧
    update_master_duration c1Events 0 (secs 12) "192.168.137.34" = 0 := by
  decide

/-- A umdStep application is the identity when the event is below the cutoff
or is not a master sample. -/
theorem umdStep_skip (cutoff : Int) (st : UmdState) (p : DataPoint)
    (h : ¬ (cutoff ≤ p.timestamp ∧ p.is_master = true)) :
    umdStep cutoff st p = st := by
  unfold umdStep
  by_cases h1 : cutoff ≤ p.timestamp
  · cases h2 : p.is_master
    · simp [h1, h2]
    · exact absurd ⟨h1, h2⟩ h
  · simp [h1]

/-- The update_master_duration scan only looks at master samples at or above
the cutoff. -/
theorem umd_foldl_filter (cutoff : Int) (events : List DataPoint) :
    ∀ st : UmdState,
      events.foldl (umdStep cutoff) st =
        (events.filter
          (fun e => decide (cutoff ≤ e.timestamp) && e.is_master)).foldl
          (umdStep cutoff) st := by
  induction events with
  | nil => intro st; rfl
  | cons e es ih =>
    intro st
    by_cases hp : cutoff ≤ e.timestamp ∧ e.is_master = true
    · have : (decide (cutoff ≤ e.timestamp) && e.is_master) = true := by
        simp [hp.1, hp.2]
      simp only [List.foldl_cons, List.filter_cons, this, if_true]
      exact ih (umdStep cutoff st e)
    · have : (decide (cutoff ≤ e.timestamp) && e.is_master) = false := by
        rcases Decidable.not_and_iff_or_not.mp hp with h | h
        · simp [h]
        · cases hb : e.is_master
          · simp
          · exact absurd hb h
      simp only [List.foldl_cons, List.filter_cons, this, Bool.false_eq_true,
        if_false, umdStep_skip cutoff st e hp]
      exact ih st

/-- C3: with no master event at all, update_master_duration returns zero for
every node (this covers the empty sequence); with exactly one master event,
at or above the window start, the sending node is credited exactly now minus
that event's timestamp, namely the final open interval, and every other node
gets zero. -/
theorem claim_C3 (events : List DataPoint) (cutoff now : Int) :
    (events.filter (fun e => e.is_master) = [] →
      ∀ ip, update_master_duration events cutoff now ip = 0)
    ∧ (∀ e0, events.filter (fun e => e.is_master) = [e0] →
        cutoff ≤ e0.timestamp →
        ∀ ip, update_master_duration events cutoff now ip =
          if ip = e0.ip then now - e0.timestamp else 0) := by
  have hsplit : events.filter (fun e => decide (cutoff ≤ e.timestamp) && e.is_master)
      = (events.filter (fun e => e.is_master)).filter
          (fun e => decide (cutoff ≤ e.timestamp)) :=
    (List.filter_filter _ _).symm
  constructor
  · intro h0 ip
    unfold update_master_duration update_master_duration_fold
    rw [umd_foldl_filter, hsplit, h0]
    rfl
  · intro e0 h1 hc ip
    have hm : e0.is_master = true := by
      have hmem : e0 ∈ events.filter (fun e => e.is_master) := by
        rw [h1]; exact List.mem_cons_self e0 []
      exact List.of_mem_filter hmem
    unfold update_master_duration update_master_duration_fold
    rw [umd_foldl_filter, hsplit, h1]
    have h2 : (([e0] : List DataPoint).filter
        (fun e => decide (cutoff ≤ e.timestamp))) = [e0] := by
      simp [List.filter_cons, hc]
    rw [h2]
    simp only [List.foldl_cons, List.foldl_nil, umdStep, hc, if_true, hm]
    by_cases hip : ip = e0.ip
    · simp [hip]
    · simp [hip]

/-- C3 witness: a concrete sequence with a single master event from GREEN at
t = 2s, queried with window start 0 at now = 9s, credits GREEN 7 seconds. -/
theorem claim_C3_witness :
    ([(⟨secs 2, "192.168.137.165", "GREEN", 7, true⟩ : DataPoint)].filter
        (fun e => e.is_master) = [⟨secs 2, "192.168.137.165", "GREEN", 7, true⟩]) ∧
    update_master_duration [⟨secs 2, "192.168.137.165", "GREEN", 7, true⟩] 0
      (secs 9) "192.168.137.165" = secs 7 := by
  refine ⟨by decide, ?_⟩
  have h := (claim_C3 [⟨secs 2, "192.168.137.165", "GREEN", 7, true⟩] 0 (secs 9)).2
    ⟨secs 2, "192.168.137.165", "GREEN", 7, true⟩ (by decide) (by decide)
    "192.168.137.165"
  rw [h]
  decide

/-- Folding the last-master update over the paired representation tracks the
optional-pair representation. -/
theorem lm_pair_fold (events : List DataPoint) :
    ∀ o : Option (String × Int),
      events.foldl lmPairStep (toLMPair o)
        = toLMPair (events.foldl
            (fun st p => if p.is_master then some (p.ip, p.timestamp) else st) o) := by
  induction events with
  | nil => intro o; rfl
  | cons e es ih =>
    intro o
    simp only [List.foldl_cons]
    cases hm : e.is_master
    · simpa [lmPairStep, hm] using ih o
    · have h1 : lmPairStep (toLMPair o) e = toLMPair (some (e.ip, e.timestamp)) := by
        simp [lmPairStep, hm, toLMPair]
      rw [h1, ih (some (e.ip, e.timestamp))]
      simp [hm]

/-- On events at or above the cutoff, the update_master_duration scan moves
last_master and last_time exactly as lmPairStep does. -/
theorem umd_fold_lm (cutoff : Int) :
    ∀ (events : List DataPoint) (st : UmdState),
      (∀ e ∈ events, cutoff ≤ e.timestamp) →
      (events.foldl (umdStep cutoff) st).2 = events.foldl lmPairStep st.2 := by
  intro events
  induction events with
  | nil => intro st _; rfl
  | cons e es ih =>
    intro st hev
    have hc : cutoff ≤ e.timestamp := hev e (List.mem_cons_self e es)
    have hev' : ∀ x ∈ es, cutoff ≤ x.timestamp :=
      fun x hx => hev x (List.mem_cons_of_mem e hx)
    simp only [List.foldl_cons]
    cases hm : e.is_master
    · rw [umdStep_skip cutoff st e (by simp [hm]), ih st hev']
      simp [lmPairStep, hm]
    · have h1 : (umdStep cutoff st e).2 = (some e.ip, some e.timestamp) := by
        unfold umdStep
        rcases st with ⟨acc, lm, lt⟩
        cases lm with
        | none => simp [hc, hm]
        | some m =>
          cases lt with
          | none => simp [hc, hm]
          | some t =>
            by_cases hmi : m = e.ip <;> simp [hc, hm, hmi]
      have h2 : lmPairStep st.2 e = (some e.ip, some e.timestamp) := by
        simp [lmPairStep, hm]
      rw [ih (umdStep cutoff st e) hev', h1, h2]

/-- On events at or above the cutoff and with positive timestamps, the
duration dictionary built by the update_master_duration scan agrees pointwise
with the one built by the duration loop of analyze_log_file, whenever the two
scans start from pointwise-equal dictionaries and the same last-master state
with a positive last_time. -/
theorem umd_pass_dur (cutoff : Int) :
    ∀ (events : List DataPoint) (du da : String → Int) (cnt : String → Nat)
      (lm : Option String) (lt : Option Int),
      (∀ e ∈ events, cutoff ≤ e.timestamp ∧ 0 < e.timestamp) →
      (∀ t, lt = some t → 0 < t) →
      (∀ ip, du ip = da ip) →
      ∀ ip, (events.foldl (umdStep cutoff) (du, lm, lt)).1 ip
          = (events.foldl passStep (da, cnt, lm, lt)).1 ip := by
  intro events
  induction events with
  | nil => intro du da cnt lm lt _ _ hdu ip; exact hdu ip
  | cons e es ih =>
    intro du da cnt lm lt hev hlt hdu ip
    have he := hev e (List.mem_cons_self e es)
    have hev' : ∀ x ∈ es, cutoff ≤ x.timestamp ∧ 0 < x.timestamp :=
      fun x hx => hev x (List.mem_cons_of_mem e hx)
    have hlt' : ∀ t, (some e.timestamp : Option Int) = some t → 0 < t := by
      intro t ht
      cases ht
      exact he.2
    simp only [List.foldl_cons]
    cases hm : e.is_master
    · rw [umdStep_skip cutoff _ e (by simp [hm])]
      have hp : passStep (da, cnt, lm, lt) e = (da, cnt, lm, lt) := by
        simp [passStep, hm]
      rw [hp]
      exact ih du da cnt lm lt hev' hlt hdu ip
    · cases lm with
      | none =>
        have h1 : umdStep cutoff (du, none, lt) e = (du, some e.ip, some e.timestamp) := by
          unfold umdStep
          cases lt <;> simp [he.1, hm]
        have h2 : passStep (da, cnt, none, lt) e = (da, cnt, some e.ip, some e.timestamp) := by
          unfold passStep
          cases lt <;> simp [hm]
        rw [h1, h2]
        exact ih du da cnt (some e.ip) (some e.timestamp) hev' hlt' hdu ip
      | some m =>
        cases lt with
        | none =>
          have h1 : umdStep cutoff (du, some m, none) e
              = (du, some e.ip, some e.timestamp) := by
            unfold umdStep
            by_cases hmi : m = e.ip <;> simp [he.1, hm, hmi]
          have h2 : passStep (da, cnt, some m, none) e
              = (da, cnt, some e.ip, some e.timestamp) := by
            unfold passStep
            simp [hm]
          rw [h1, h2]
          exact ih du da cnt (some e.ip) (some e.timestamp) hev' hlt' hdu ip
        | some t =>
          have ht : 0 < t := hlt t rfl
          by_cases hmi : m = e.ip
          · have h1 : umdStep cutoff (du, some m, some t) e
                = ((fun ip => if ip = e.ip then du ip + (e.timestamp - t) else du ip),
                    some e.ip, some e.timestamp) := by
              unfold umdStep
              simp [he.1, hm, hmi]
            have h2 : passStep (da, cnt, some m, some t) e
                = ((fun ip => if ip = e.ip then da ip + (e.timestamp - t) else da ip),
                    (fun ip => if ip = e.ip then cnt ip + 1 else cnt ip),
                    some e.ip, some e.timestamp) := by
              unfold passStep
              simp [hm, hmi, Int.ne_of_gt ht]
            rw [h1, h2]
            refine ih _ _ _ (some e.ip) (some e.timestamp) hev' hlt' ?_ ip
            intro j
            by_cases hj : j = e.ip <;> simp [hj, hdu]
          · have h1 : umdStep cutoff (du, some m, some t) e
                = (du, some e.ip, some e.timestamp) := by
              unfold umdStep
              simp [he.1, hm, hmi]
            have h2 : passStep (da, cnt, some m, some t) e
                = (da, cnt, some e.ip, some e.timestamp) := by
              unfold passStep
              simp [hm, hmi]
            rw [h1, h2]
            exact ih du da cnt (some e.ip) (some e.timestamp) hev' hlt' hdu ip

/-- C2 counterexample: for the session holding the single master event of
c2Events (RED at t = 1s) stopped at now = 11s, the live accumulator
update_master_duration reports 10 seconds for RED, while analyze_log_file on
the log written for that session reports 0 for RED (RED does not even appear
in master_durations): the analyzer never credits the final open interval, so
the two differ by far more than the stored 2-decimal rounding. -/
theorem claim_C2_counterexample :
    update_master_duration c2Events 0 (secs 11) "192.168.137.35" = secs 10 ∧
    (analyze_log_file c2Log).map
      (fun a => analysisDurationOf a "192.168.137.35") = some 0 ∧
    (secs 10 : Int) ≠ 0 := by
  decide

/-- C2 as amended: over any session events with positive timestamps at or
above the session start, the durations the live accumulator reports equal the
durations the analyzer duration loop recomputes plus the final open-interval
credit of the last master sample; the two therefore agree exactly when that
final credit is zero, and otherwise the analyzer under-reports the last
master by now minus its last sample time. -/
theorem claim_C2_amended (events : List DataPoint) (cutoff now : Int)
    (hev : ∀ e ∈ events, cutoff ≤ e.timestamp ∧ 0 < e.timestamp) (ip : String) :
    update_master_duration events cutoff now ip
      = (analyzeDurationsPass events).1 ip + openIntervalCredit events now ip := by
  have hev1 : ∀ e ∈ events, cutoff ≤ e.timestamp := fun e he => (hev e he).1
  have hdur : (update_master_duration_fold events cutoff).1 ip
      = (analyzeDurationsPass events).1 ip :=
    umd_pass_dur cutoff events (fun _ => 0) (fun _ => 0) (fun _ => 0)
      none none hev (by intro t ht; cases ht) (fun _ => rfl) ip
  have hlm2 : (update_master_duration_fold events cutoff).2
      = toLMPair (lastMasterSample events) := by
    unfold update_master_duration_fold
    rw [umd_fold_lm cutoff events _ hev1]
    show events.foldl lmPairStep (toLMPair none) = _
    rw [lm_pair_fold events none]
    rfl
  unfold update_master_duration openIntervalCredit
  rcases hf : update_master_duration_fold events cutoff with ⟨acc, lm2, lt2⟩
  rw [hf] at hdur hlm2
  have hdur2 : acc ip = (analyzeDurationsPass events).1 ip := hdur
  cases hls : lastMasterSample events with
  | none =>
    rw [hls] at hlm2
    injection hlm2 with h1 h2
    subst h1
    subst h2
    show acc ip = (analyzeDurationsPass events).1 ip + 0
    omega
  | some mt =>
    obtain ⟨m, t⟩ := mt
    rw [hls] at hlm2
    injection hlm2 with h1 h2
    subst h1
    subst h2
    by_cases hip : ip = m
    · show (if ip = m then acc ip + (now - t) else acc ip)
        = (analyzeDurationsPass events).1 ip + (if ip = m then now - t else 0)
      rw [if_pos hip, if_pos hip]
      omega
    · show (if ip = m then acc ip + (now - t) else acc ip)
        = (analyzeDurationsPass events).1 ip + (if ip = m then now - t else 0)
      rw [if_neg hip, if_neg hip]
      omega

/-- C2 amended witness: the decomposition instantiated on the c2Events
session at window start 0 and now = 11s, for RED. -/
theorem claim_C2_amended_witness :
    (∀ e ∈ c2Events, (0 : Int) ≤ e.timestamp ∧ 0 < e.timestamp) ∧
    update_master_duration c2Events 0 (secs 11) "192.168.137.35"
      = (analyzeDurationsPass c2Events).1 "192.168.137.35"
        + openIntervalCredit c2Events (secs 11) "192.168.137.35" :=
  ⟨by decide, claim_C2_amended c2Events 0 (secs 11) (by decide) "192.168.137.35"⟩

/-- Stamping graph_start_time changes no other device-state field. -/
theorem noteGraphStart_fields (s : DevState) (now : Int) :
    (noteGraphStart s now).node_values = s.node_values ∧
    (noteGraphStart s now).node_is_master = s.node_is_master ∧
    (noteGraphStart s now).last_update_time = s.last_update_time ∧
    (noteGraphStart s now).graph_data = s.graph_data ∧
    (noteGraphStart s now).session_data = s.session_data ∧
    (noteGraphStart s now).log_rows = s.log_rows ∧
    (noteGraphStart s now).logging_active = s.logging_active := by
  unfold noteGraphStart
  by_cases h : s.graph_start_time = none <;> simp [h]

/-- Writing a row touches only log_rows and all_masters. -/
theorem dev_log_data_point_fields (s : DevState) (p : DataPoint) :
    (dev_log_data_point s p).node_values = s.node_values ∧
    (dev_log_data_point s p).node_is_master = s.node_is_master ∧
    (dev_log_data_point s p).last_update_time = s.last_update_time ∧
    (dev_log_data_point s p).graph_data = s.graph_data ∧
    (dev_log_data_point s p).session_data = s.session_data := by
  unfold dev_log_data_point
  by_cases h : s.logging_active <;> simp [h]

/-- A message whose first character differs cannot carry the prefix. -/
theorem isPrefixOf_head_ne {c d : Char} (h : c ≠ d) (xs rest : List Char) :
    List.isPrefixOf (c :: xs) (d :: rest) = false := by
  simp [List.isPrefixOf, h]

/-- A message carrying a nonempty prefix starts with its first character. -/
theorem head_of_isPrefixOf {c : Char} {xs msg : List Char}
    (h : List.isPrefixOf (c :: xs) msg = true) :
    ∃ rest, msg = c :: rest := by
  cases msg with
  | nil => simp [List.isPrefixOf] at h
  | cons d rest =>
    have hcd : c = d := by
      have := (List.cons_prefix_cons.mp (List.isPrefixOf_iff_prefix.mp h)).1
      exact this
    exact ⟨rest, by rw [hcd]⟩

/-- C4: a message from a known node carrying a recognized prefix whose
payload does not parse as an integer (int raises ValueError, caught by the
per-branch handler) leaves the node-value map, the node-is-master map, the
last-update map, the live ring buffer, the session buffer and the log rows
all unchanged.  Only graph_start_time, stamped before parsing, may change. -/
theorem claim_C4 (s : DevState) (sender : String) (msg : List Char) (now : Int)
    (k : NodeId) (hk : lookupNode sender = some k)
    (hpre : List.isPrefixOf "MASTER:".toList msg = true ∨
      List.isPrefixOf "SENSOR:".toList msg = true ∨
      List.isPrefixOf "LIGHT:".toList msg = true)
    (hparse : pyInt ((splitOnChar ':' msg).getD 1 []) = none) :
    (process_udp_message s sender msg now).node_values = s.node_values ∧
    (process_udp_message s sender msg now).node_is_master = s.node_is_master ∧
    (process_udp_message s sender msg now).last_update_time = s.last_update_time ∧
    (process_udp_message s sender msg now).graph_data = s.graph_data ∧
    (process_udp_message s sender msg now).session_data = s.session_data ∧
    (process_udp_message s sender msg now).log_rows = s.log_rows := by
  obtain ⟨h1, h2, h3, h4, h5, h6, h7⟩ := noteGraphStart_fields s now
  unfold process_udp_message
  rw [hk]
  rcases hpre with h | h | h
  · simp only [h, if_true, hparse]
    exact ⟨h1, h2, h3, h4, h5, h6⟩
  · obtain ⟨rest, hrest⟩ := @head_of_isPrefixOf 'S' "ENSOR:".toList msg
      (by rw [show ('S' : Char) :: "ENSOR:".toList = "SENSOR:".toList from rfl]; exact h)
    have hM : List.isPrefixOf "MASTER:".toList msg = false := by
      rw [hrest, show "MASTER:".toList = 'M' :: "ASTER:".toList from rfl]
      exact isPrefixOf_head_ne (by decide) _ _
    simp only [hM, Bool.false_eq_true, if_false, h, true_or, if_true, hparse]
    exact ⟨h1, h2, h3, h4, h5, h6⟩
  · obtain ⟨rest, hrest⟩ := @head_of_isPrefixOf 'L' "IGHT:".toList msg
      (by rw [show ('L' : Char) :: "IGHT:".toList = "LIGHT:".toList from rfl]; exact h)
    have hM : List.isPrefixOf "MASTER:".toList msg = false := by
      rw [hrest, show "MASTER:".toList = 'M' :: "ASTER:".toList from rfl]
      exact isPrefixOf_head_ne (by decide) _ _
    simp only [hM, Bool.false_eq_true, if_false, h, or_true, if_true, hparse]
    exact ⟨h1, h2, h3, h4, h5, h6⟩

/-- C4 witness: the malformed message MASTER:abc from RED leaves every listed
component of the initial device state unchanged. -/
theorem claim_C4_witness :
    pyInt ((splitOnChar ':' "MASTER:abc".toList).getD 1 []) = none ∧
    ((process_udp_message initDevState "192.168.137.35" "MASTER:abc".toList
        (secs 1)).node_values = initDevState.node_values ∧
      (process_udp_message initDevState "192.168.137.35" "MASTER:abc".toList
        (secs 1)).node_is_master = initDevState.node_is_master ∧
      (process_udp_message initDevState "192.168.137.35" "MASTER:abc".toList
        (secs 1)).last_update_time = initDevState.last_update_time ∧
      (process_udp_message initDevState "192.168.137.35" "MASTER:abc".toList
        (secs 1)).graph_data = initDevState.graph_data ∧
      (process_udp_message initDevState "192.168.137.35" "MASTER:abc".toList
        (secs 1)).session_data = initDevState.session_data ∧
      (process_udp_message initDevState "192.168.137.35" "MASTER:abc".toList
        (secs 1)).log_rows = initDevState.log_rows) :=
  ⟨by decide,
    claim_C4 initDevState "192.168.137.35" "MASTER:abc".toList (secs 1)
      NodeId.red (by decide) (Or.inl (by decide)) (by decide)⟩

/-- A MASTER message with a parsing payload makes its sender the one master. -/
theorem process_master_masters (s : DevState) (sender : String) (msg : List Char)
    (now : Int) (k : NodeId) (v : Int) (hk : lookupNode sender = some k)
    (hm : List.isPrefixOf "MASTER:".toList msg = true)
    (hp : pyInt ((splitOnChar ':' msg).getD 1 []) = some v) :
    (process_udp_message s sender msg now).node_is_master
      = fun j => if j = k then true else false := by
  unfold process_udp_message
  rw [hk]
  simp only [hm, if_true, hp]
  by_cases hl : (noteGraphStart s now).logging_active
  · simp only [hl, if_true]
    unfold dev_log_data_point
    simp [hl]
  · simp [hl]

/-- A SENSOR or LIGHT message with a parsing payload clears only the sender's
master flag. -/
theorem process_sensor_masters (s : DevState) (sender : String) (msg : List Char)
    (now : Int) (k : NodeId) (v : Int) (hk : lookupNode sender = some k)
    (hm : List.isPrefixOf "MASTER:".toList msg = false)
    (hs : List.isPrefixOf "SENSOR:".toList msg = true ∨
      List.isPrefixOf "LIGHT:".toList msg = true)
    (hp : pyInt ((splitOnChar ':' msg).getD 1 []) = some v) :
    (process_udp_message s sender msg now).node_is_master
      = fun j => if j = k then false else (noteGraphStart s now).node_is_master j := by
  unfold process_udp_message
  rw [hk]
  rcases hs with h | h
  · simp only [hm, Bool.false_eq_true, if_false, h, true_or, if_true, hp]
    by_cases hl : (noteGraphStart s now).logging_active
    · simp only [hl, if_true]
      unfold dev_log_data_point
      simp [hl]
    · simp [hl]
  · simp only [hm, Bool.false_eq_true, if_false, h, or_true, if_true, hp]
    by_cases hl : (noteGraphStart s now).logging_active
    · simp only [hl, if_true]
      unfold dev_log_data_point
      simp [hl]
    · simp [hl]

/-- Every processed datagram preserves the at-most-one-master invariant of
the node_is_master dictionary. -/
theorem process_udp_preserves_atMostOne (s : DevState) (sender : String)
    (msg : List Char) (now : Int) (hinv : atMostOneMaster s.node_is_master) :
    atMostOneMaster (process_udp_message s sender msg now).node_is_master := by
  obtain ⟨_, h2, _, _, _, _, _⟩ := noteGraphStart_fields s now
  cases hlk : lookupNode sender with
  | none =>
    unfold process_udp_message
    rw [hlk]
    exact hinv
  | some k =>
    by_cases hm : List.isPrefixOf "MASTER:".toList msg = true
    · cases hp : pyInt ((splitOnChar ':' msg).getD 1 []) with
      | none =>
        unfold process_udp_message
        rw [hlk]
        simp only [hm, if_true, hp]
        rw [h2]
        exact hinv
      | some v =>
        rw [process_master_masters s sender msg now k v hlk hm hp]
        intro a b ha hb
        by_cases hak : a = k
        · by_cases hbk : b = k
          · rw [hak, hbk]
          · simp [hbk] at hb
        · simp [hak] at ha
    · have hm' : List.isPrefixOf "MASTER:".toList msg = false :=
        eq_false_of_ne_true hm
      by_cases hs : (List.isPrefixOf "SENSOR:".toList msg = true ∨
          List.isPrefixOf "LIGHT:".toList msg = true)
      · cases hp : pyInt ((splitOnChar ':' msg).getD 1 []) with
        | none =>
          unfold process_udp_message
          rw [hlk]
          rcases hs with h | h
          · simp only [hm', Bool.false_eq_true, if_false, h, true_or, if_true, hp]
            rw [h2]
            exact hinv
          · simp only [hm', Bool.false_eq_true, if_false, h, or_true, if_true, hp]
            rw [h2]
            exact hinv
        | some v =>
          rw [process_sensor_masters s sender msg now k v hlk hm' hs hp]
          simp only [h2]
          intro a b ha hb
          by_cases hak : a = k
          · simp [hak] at ha
          · by_cases hbk : b = k
            · simp [hbk] at hb
            · simp only [if_neg hak] at ha
              simp only [if_neg hbk] at hb
              exact hinv a b ha hb
      · have hA : List.isPrefixOf "SENSOR:".toList msg = false :=
          eq_false_of_ne_true (fun hh => hs (Or.inl hh))
        have hB : List.isPrefixOf "LIGHT:".toList msg = false :=
          eq_false_of_ne_true (fun hh => hs (Or.inr hh))
        unfold process_udp_message
        rw [hlk]
        simp only [hm', hA, hB, Bool.false_eq_true, if_false, or_self]
        rw [h2]
        exact hinv

/-- C10: in the initial state no node is master; every processed datagram
preserves the invariant that at most one node has is_master true; a MASTER
message from a known node with a parsing payload sets the sender's flag and
clears every other node's flag; a SENSOR or LIGHT message with a parsing
payload clears the sender's flag. -/
theorem claim_C10 :
    atMostOneMaster initDevState.node_is_master ∧
    (∀ (s : DevState) (sender : String) (msg : List Char) (now : Int),
      atMostOneMaster s.node_is_master →
      atMostOneMaster (process_udp_message s sender msg now).node_is_master) ∧
    (∀ (s : DevState) (sender : String) (msg : List Char) (now : Int)
        (k : NodeId) (v : Int),
      lookupNode sender = some k →
      List.isPrefixOf "MASTER:".toList msg = true →
      pyInt ((splitOnChar ':' msg).getD 1 []) = some v →
      (process_udp_message s sender msg now).node_is_master k = true ∧
      ∀ j, j ≠ k → (process_udp_message s sender msg now).node_is_master j = false) ∧
    (∀ (s : DevState) (sender : String) (msg : List Char) (now : Int)
        (k : NodeId) (v : Int),
      lookupNode sender = some k →
      List.isPrefixOf "MASTER:".toList msg = false →
      (List.isPrefixOf "SENSOR:".toList msg = true ∨
        List.isPrefixOf "LIGHT:".toList msg = true) →
      pyInt ((splitOnChar ':' msg).getD 1 []) = some v →
      (process_udp_message s sender msg now).node_is_master k = false) := by
  refine ⟨?_, process_udp_preserves_atMostOne, ?_, ?_⟩
  · intro a b ha hb
    simp [initDevState] at ha
  · intro s sender msg now k v hk hm hp
    rw [process_master_masters s sender msg now k v hk hm hp]
    constructor
    · simp
    · intro j hj
      simp [hj]
  · intro s sender msg now k v hk hm hs hp
    rw [process_sensor_masters s sender msg now k v hk hm hs hp]
    simp

/-- C10 witness: MASTER:42 from RED in the initial state makes RED the sole
master, and the invariant holds afterwards. -/
theorem claim_C10_witness :
    (process_udp_message initDevState "192.168.137.35" "MASTER:42".toList
      (secs 1)).node_is_master NodeId.red = true ∧
    (process_udp_message initDevState "192.168.137.35" "MASTER:42".toList
      (secs 1)).node_is_master NodeId.blue = false ∧
    atMostOneMaster (process_udp_message initDevState "192.168.137.35"
      "MASTER:42".toList (secs 1)).node_is_master :=
  ⟨(claim_C10.2.2.1 initDevState "192.168.137.35" "MASTER:42".toList (secs 1)
      NodeId.red 42 (by decide) (by decide) (by decide)).1,
    (claim_C10.2.2.1 initDevState "192.168.137.35" "MASTER:42".toList (secs 1)
      NodeId.red 42 (by decide) (by decide) (by decide)).2 NodeId.blue
      (by decide),
    claim_C10.2.1 initDevState "192.168.137.35" "MASTER:42".toList (secs 1)
      (fun a b ha _ => by simp [initDevState] at ha)⟩

/-- A deduplicating log step never touches the closed files. -/
theorem dedupLogStep_closedFiles (s : SrvState) (p : DataPoint) :
    (dedupLogStep s p).closedFiles = s.closedFiles := by
  unfold dedupLogStep log_data_point_to_file
  by_cases h : dedupHit s.buffer p <;> cases hc : s.current <;> simp [h, hc]

/-- A deduplicating log step never touches the logging flag. -/
theorem dedupLogStep_la (s : SrvState) (p : DataPoint) :
    (dedupLogStep s p).loggingActive = s.loggingActive := by
  unfold dedupLogStep log_data_point_to_file
  by_cases h : dedupHit s.buffer p <;> cases hc : s.current <;> simp [h, hc]

/-- A deduplicating log step keeps the footer count of the open file. -/
theorem dedupLogStep_footers (s : SrvState) (p : DataPoint) (f' : SrvFile)
    (h : (dedupLogStep s p).current = some f') :
    ∃ f, s.current = some f ∧ f'.footers = f.footers := by
  unfold dedupLogStep log_data_point_to_file at h
  by_cases hh : dedupHit s.buffer p
  · exact ⟨f', by simpa [hh] using h, rfl⟩
  · cases hc : s.current with
    | none => simp [hh, hc] at h
    | some f =>
      simp [hh, hc] at h
      exact ⟨f, rfl, by rw [← h]⟩

/-- Without an open file a deduplicating log step does nothing. -/
theorem dedupLogStep_none (s : SrvState) (p : DataPoint)
    (h : s.current = none) : dedupLogStep s p = s := by
  unfold dedupLogStep log_data_point_to_file
  by_cases hh : dedupHit s.buffer p <;> simp [hh, h]

/-- A deduplicating log step keeps whether a file is open. -/
theorem dedupLogStep_isSome (s : SrvState) (p : DataPoint) :
    (dedupLogStep s p).current.isSome = s.current.isSome := by
  unfold dedupLogStep log_data_point_to_file
  by_cases hh : dedupHit s.buffer p <;> cases hc : s.current <;> simp [hh, hc]

/-- An already-present point is skipped whole. -/
theorem dedupLogStep_skip (s : SrvState) (p : DataPoint)
    (h : dedupHit s.buffer p = true) : dedupLogStep s p = s := by
  unfold dedupLogStep
  simp [h]

/-- What a deduplicating log step does to the session buffer. -/
theorem dedupLogStep_buffer (s : SrvState) (p : DataPoint) :
    (dedupLogStep s p).buffer = s.buffer ∨
    ((dedupLogStep s p).buffer = s.buffer ++ [p] ∧ dedupHit s.buffer p = false) := by
  unfold dedupLogStep log_data_point_to_file
  by_cases hh : dedupHit s.buffer p
  · exact Or.inl (by simp [hh])
  · cases hc : s.current with
    | none => exact Or.inl (by simp [hh, hc])
    | some f => exact Or.inr ⟨by simp [hh, hc], eq_false_of_ne_true hh⟩

/-- Membership by key: the dedup test succeeds exactly when the key is in the
buffer. -/
theorem dedupHit_iff (buf : List DataPoint) (p : DataPoint) :
    dedupHit buf p = true ↔
      (p.timestamp, p.ip) ∈ buf.map (fun q => (q.timestamp, q.ip)) := by
  unfold dedupHit
  rw [List.any_eq_true]
  constructor
  · rintro ⟨q, hq, hd⟩
    have hd' := of_decide_eq_true hd
    exact List.mem_map.mpr ⟨q, hq, by rw [hd'.1, hd'.2]⟩
  · intro h
    obtain ⟨q, hq, hk⟩ := List.mem_map.mp h
    refine ⟨q, hq, decide_eq_true ?_⟩
    have h1 := congrArg Prod.fst hk
    have h2 := congrArg Prod.snd hk
    exact ⟨h1, h2⟩

/-- Keys already in the buffer stay there across a deduplicating log fold. -/
theorem dedup_fold_key_mono (pts : List DataPoint) :
    ∀ (s : SrvState) (k : Int × String),
      k ∈ s.buffer.map (fun q => (q.timestamp, q.ip)) →
      k ∈ (pts.foldl dedupLogStep s).buffer.map (fun q => (q.timestamp, q.ip)) := by
  induction pts with
  | nil => intro s k hk; exact hk
  | cons p rest ih =>
    intro s k hk
    simp only [List.foldl_cons]
    refine ih (dedupLogStep s p) k ?_
    rcases dedupLogStep_buffer s p with h | ⟨h, _⟩
    · rw [h]; exact hk
    · rw [h, List.map_append]
      exact List.mem_append_left _ hk

/-- Whether a file is open survives a deduplicating log fold. -/
theorem dedup_fold_isSome (pts : List DataPoint) :
    ∀ s : SrvState,
      (pts.foldl dedupLogStep s).current.isSome = s.current.isSome := by
  induction pts with
  | nil => intro s; rfl
  | cons p rest ih =>
    intro s
    simp only [List.foldl_cons]
    rw [ih (dedupLogStep s p), dedupLogStep_isSome]

/-- The logging flag survives a deduplicating log fold. -/
theorem dedup_fold_la (pts : List DataPoint) :
    ∀ s : SrvState,
      (pts.foldl dedupLogStep s).loggingActive = s.loggingActive := by
  induction pts with
  | nil => intro s; rfl
  | cons p rest ih =>
    intro s
    simp only [List.foldl_cons]
    rw [ih (dedupLogStep s p), dedupLogStep_la]

/-- Without an open file a deduplicating log fold does nothing. -/
theorem dedup_fold_none (pts : List DataPoint) :
    ∀ s : SrvState, s.current = none → pts.foldl dedupLogStep s = s := by
  induction pts with
  | nil => intro s _; rfl
  | cons p rest ih =>
    intro s h
    simp only [List.foldl_cons]
    rw [dedupLogStep_none s p h]
    exact ih s h

/-- When every point of the batch is already buffered by key, the fold does
nothing. -/
theorem dedup_fold_all_hit (pts : List DataPoint) :
    ∀ s : SrvState, (∀ p ∈ pts, dedupHit s.buffer p = true) →
      pts.foldl dedupLogStep s = s := by
  induction pts with
  | nil => intro s _; rfl
  | cons p rest ih =>
    intro s h
    simp only [List.foldl_cons]
    rw [dedupLogStep_skip s p (h p (List.mem_cons_self p rest))]
    exact ih s (fun q hq => h q (List.mem_cons_of_mem p hq))

/-- With an open file and a fresh key, the point is appended to the buffer. -/
theorem dedupLogStep_buffer_some (s : SrvState) (p : DataPoint) (f : SrvFile)
    (hc : s.current = some f) (hh : dedupHit s.buffer p = false) :
    (dedupLogStep s p).buffer = s.buffer ++ [p] := by
  unfold dedupLogStep log_data_point_to_file
  simp [hh, hc]

/-- With an open file, after the fold every point of the batch is buffered by
key. -/
theorem dedup_fold_mem (pts : List DataPoint) :
    ∀ s : SrvState, s.current.isSome = true →
      ∀ p ∈ pts, (p.timestamp, p.ip)
        ∈ (pts.foldl dedupLogStep s).buffer.map (fun q => (q.timestamp, q.ip)) := by
  induction pts with
  | nil => intro s _ p hp; cases hp
  | cons q rest ih =>
    intro s hs p hp
    have hs2 : (dedupLogStep s q).current.isSome = true := by
      rw [dedupLogStep_isSome]; exact hs
    simp only [List.foldl_cons]
    rcases List.mem_cons.mp hp with rfl | hp2
    · by_cases hh : dedupHit s.buffer p
      · rw [dedupLogStep_skip s p hh]
        exact dedup_fold_key_mono rest s _ ((dedupHit_iff s.buffer p).mp hh)
      · obtain ⟨f, hf⟩ := Option.isSome_iff_exists.mp hs
        refine dedup_fold_key_mono rest (dedupLogStep s p) _ ?_
        rw [dedupLogStep_buffer_some s p f hf (eq_false_of_ne_true hh),
          List.map_append]
        exact List.mem_append_right _ (by simp)
    · exact ih (dedupLogStep s q) hs2 p hp2

/-- One deduplicating log step keeps the buffer keys distinct and keeps the
open file's rows equal to the buffer. -/
theorem dedupLogStep_inv (s : SrvState) (p : DataPoint) (h : c9Inv s) :
    c9Inv (dedupLogStep s p) := by
  obtain ⟨h1, h2⟩ := h
  constructor
  · rcases dedupLogStep_buffer s p with hb | ⟨hb, hh⟩
    · unfold bufKeys
      rw [hb]
      exact h1
    · unfold bufKeys
      rw [hb, List.map_append, List.nodup_append]
      refine ⟨h1, List.nodup_singleton _, ?_⟩
      intro k hk hk1
      simp only [List.map_cons, List.map_nil, List.mem_singleton] at hk1
      subst hk1
      exact absurd ((dedupHit_iff s.buffer p).mpr hk) (by simp [hh])
  · intro f hf
    by_cases hh : dedupHit s.buffer p
    · rw [dedupLogStep_skip s p hh] at hf ⊢
      exact h2 f hf
    · cases hc : s.current with
      | none =>
        rw [dedupLogStep_none s p hc] at hf ⊢
        exact h2 f hf
      | some g =>
        have hb := dedupLogStep_buffer_some s p g hc (eq_false_of_ne_true hh)
        unfold dedupLogStep log_data_point_to_file at hf
        simp only [eq_false_of_ne_true hh, Bool.false_eq_true, if_false, hc,
          Option.some.injEq] at hf
        rw [hb, ← hf]
        rw [h2 g hc]

/-- The deduplicating fold keeps the buffer keys distinct and the rows in
step with the buffer. -/
theorem dedup_fold_inv (pts : List DataPoint) :
    ∀ s : SrvState, c9Inv s → c9Inv (pts.foldl dedupLogStep s) := by
  induction pts with
  | nil => intro s h; exact h
  | cons p rest ih =>
    intro s h
    simp only [List.foldl_cons]
    exact ih (dedupLogStep s p) (dedupLogStep_inv s p h)

/-- Every request preserves distinct buffer keys and rows in step with the
buffer. -/
theorem receive_data_inv (s : SrvState) (op : SrvOp) (h : c9Inv s) :
    c9Inv (receive_data_step s op) := by
  cases op with
  | trigStart now =>
    refine ⟨?_, ?_⟩
    · unfold receive_data_step start_local_logging_session bufKeys
      cases s.current <;> simp
    · intro f hf
      unfold receive_data_step start_local_logging_session at hf ⊢
      cases hc : s.current <;> simp [hc] at hf ⊢ <;> rw [← hf]
  | trigStop now =>
    obtain ⟨h1, h2⟩ := h
    refine ⟨?_, ?_⟩
    · unfold receive_data_step stop_local_logging_session bufKeys
      cases s.current <;> simpa using h1
    · intro f hf
      unfold receive_data_step stop_local_logging_session at hf
      cases hc : s.current <;> simp [hc] at hf
  | payload act pts =>
    unfold receive_data_step
    by_cases ha : act = true
    · subst ha
      simp only [if_true]
      refine dedup_fold_inv pts _ ⟨h.1, ?_⟩
      intro f hf
      exact h.2 f hf
    · have ha' : act = false := eq_false_of_ne_true ha
      subst ha'
      simp only [Bool.false_eq_true, if_false]
      exact ⟨h.1, fun f hf => h.2 f hf⟩

/-- Distinct buffer keys and rows in step with the buffer hold after any
request sequence. -/
theorem runServerOps_inv (ops : List SrvOp) : c9Inv (runServerOps ops) := by
  unfold runServerOps
  have h : ∀ (l : List SrvOp) (s : SrvState), c9Inv s →
      c9Inv (l.foldl receive_data_step s) := by
    intro l
    induction l with
    | nil => intro s h; exact h
    | cons op rest ih =>
      intro s h
      simp only [List.foldl_cons]
      exact ih _ (receive_data_inv s op h)
  refine h ops initSrvState ⟨?_, ?_⟩
  · unfold bufKeys initSrvState
    simp
  · intro f hf
    simp [initSrvState] at hf

/-- Rebuilding a record with the flag it already carries changes nothing. -/
theorem srvState_la_eta (r : SrvState) (h : r.loggingActive = true) :
    { r with loggingActive := true } = r := by
  rcases r with ⟨a, b, c, d, e, fl⟩
  simp only at h
  rw [h]

/-- Delivering the same snapshot payload twice is the same as once. -/
theorem receive_payload_idem (s : SrvState) (act : Bool) (pts : List DataPoint) :
    receive_data_step (receive_data_step s (.payload act pts)) (.payload act pts)
      = receive_data_step s (.payload act pts) := by
  unfold receive_data_step
  cases act with
  | false => simp
  | true =>
    simp only [if_true]
    have hla : (pts.foldl dedupLogStep
        { s with loggingActive := true }).loggingActive = true := by
      rw [dedup_fold_la]
    rw [srvState_la_eta _ hla]
    cases hc : (pts.foldl dedupLogStep { s with loggingActive := true }).current with
    | none => exact dedup_fold_none pts _ hc
    | some f =>
      have hsome : ({ s with loggingActive := true } : SrvState).current.isSome = true := by
        have hi := dedup_fold_isSome pts { s with loggingActive := true }
        rw [hc] at hi
        exact hi.symm
      refine dedup_fold_all_hit pts _ ?_
      intro p hp
      rw [dedupHit_iff]
      exact dedup_fold_mem pts _ hsome p hp

/-- A deduplicating log step keeps the footer bookkeeping intact. -/
theorem dedupLogStep_footerInv (s : SrvState) (p : DataPoint)
    (h : srvFooterInv s) : srvFooterInv (dedupLogStep s p) := by
  refine ⟨?_, ?_⟩
  · rw [dedupLogStep_closedFiles]
    exact h.1
  · intro f' hf'
    obtain ⟨f, hc, hfoot⟩ := dedupLogStep_footers s p f' hf'
    rw [hfoot]
    exact h.2 f hc

/-- Every request preserves the footer bookkeeping: closed files carry at
most one footer and the open file none yet. -/
theorem receive_data_footerInv (s : SrvState) (op : SrvOp)
    (h : srvFooterInv s) : srvFooterInv (receive_data_step s op) := by
  cases op with
  | trigStart now =>
    refine ⟨?_, ?_⟩
    · intro f hf
      unfold receive_data_step start_local_logging_session at hf
      cases hc : s.current with
      | none =>
        simp only [hc] at hf
        exact h.1 f hf
      | some g =>
        simp only [hc] at hf
        rcases List.mem_append.mp hf with hf' | hf'
        · exact h.1 f hf'
        · rw [List.mem_singleton.mp hf']
          have := h.2 g hc
          omega
    · intro f hf
      unfold receive_data_step start_local_logging_session at hf
      simp only [Option.some.injEq] at hf
      rw [← hf]
  | trigStop now =>
    refine ⟨?_, ?_⟩
    · intro f hf
      unfold receive_data_step stop_local_logging_session at hf
      cases hc : s.current with
      | none =>
        simp only [hc] at hf
        exact h.1 f hf
      | some g =>
        simp only [hc] at hf
        rcases List.mem_append.mp hf with hf' | hf'
        · exact h.1 f hf'
        · rw [List.mem_singleton.mp hf']
          have := h.2 g hc
          simp [this]
    · intro f hf
      unfold receive_data_step stop_local_logging_session at hf
      cases hc : s.current <;> simp [hc] at hf
  | payload act pts =>
    unfold receive_data_step
    have hfold : ∀ (l : List DataPoint) (r : SrvState), srvFooterInv r →
        srvFooterInv (l.foldl dedupLogStep r) := by
      intro l
      induction l with
      | nil => intro r hr; exact hr
      | cons p rest ih =>
        intro r hr
        simp only [List.foldl_cons]
        exact ih _ (dedupLogStep_footerInv r p hr)
    by_cases ha : act = true
    · subst ha
      simp only [if_true]
      exact hfold pts _ ⟨h.1, fun f hf => h.2 f hf⟩
    · have ha' : act = false := eq_false_of_ne_true ha
      subst ha'
      simp only [Bool.false_eq_true, if_false]
      exact ⟨h.1, fun f hf => h.2 f hf⟩

/-- The footer bookkeeping holds after any request sequence. -/
theorem runServerOps_footerInv (ops : List SrvOp) :
    srvFooterInv (runServerOps ops) := by
  unfold runServerOps
  have h : ∀ (l : List SrvOp) (s : SrvState), srvFooterInv s →
      srvFooterInv (l.foldl receive_data_step s) := by
    intro l
    induction l with
    | nil => intro s h; exact h
    | cons op rest ih =>
      intro s h
      simp only [List.foldl_cons]
      exact ih _ (receive_data_footerInv s op h)
  refine h ops initSrvState ⟨?_, ?_⟩
  · intro f hf
    simp [initSrvState] at hf
  · intro f hf
    simp [initSrvState] at hf

/-- C5 counterexample: two start triggers in a row.  The first session's file
is closed by the second start with zero summary footers, not the one footer
the claim requires for a started session followed by another start: the start
handler closes an open log as it stands and never runs the stop sequence. -/
theorem claim_C5_counterexample :
    (runServerOps [SrvOp.trigStart 0, SrvOp.trigStart (secs 5)]).closedFiles
      = [⟨[], 0⟩] ∧ (0 : Nat) ≠ 1 := by
  decide

/-- C5 as amended: after any request sequence every closed log file carries
at most one summary footer and the open file none; a stop trigger closes the
open file with exactly one footer, while a start trigger received while a
session is open closes that file with no footer at all (the stop sequence is
not performed first) before opening the new one. -/
theorem claim_C5_amended (ops : List SrvOp) (now : Int) :
    (∀ f ∈ (runServerOps ops).closedFiles, f.footers ≤ 1) ∧
    (∀ f, (runServerOps ops).current = some f →
      f.footers = 0 ∧
      (stop_local_logging_session (runServerOps ops)).closedFiles
        = (runServerOps ops).closedFiles ++ [⟨f.rows, 1⟩] ∧
      (start_local_logging_session (runServerOps ops) now).closedFiles
        = (runServerOps ops).closedFiles ++ [f]) := by
  obtain ⟨h1, h2⟩ := runServerOps_footerInv ops
  refine ⟨h1, ?_⟩
  intro f hf
  have hf0 := h2 f hf
  refine ⟨hf0, ?_, ?_⟩
  · unfold stop_local_logging_session
    rw [hf]
    simp [hf0]
  · unfold start_local_logging_session
    rw [hf]

/-- C5 witness: one start trigger, then the stop path gives the single file
exactly one footer. -/
theorem claim_C5_witness :
    (runServerOps [SrvOp.trigStart 0]).current = some ⟨[], 0⟩ ∧
    (stop_local_logging_session (runServerOps [SrvOp.trigStart 0])).closedFiles
      = (runServerOps [SrvOp.trigStart 0]).closedFiles ++ [⟨[], 1⟩] :=
  ⟨by decide,
    ((claim_C5_amended [SrvOp.trigStart 0] 0).2 ⟨[], 0⟩ (by decide)).2.1⟩

/-- C9: the session buffer never holds two points with the same (timestamp,
address) key after any request sequence, and the open file's rows are exactly
the session buffer (so each distinct point is logged at most once per
session); a point whose key is already buffered is skipped without any state
change; and delivering the same snapshot payload twice leaves the state of
the first delivery untouched. -/
theorem claim_C9 :
    (∀ ops : List SrvOp, (bufKeys (runServerOps ops)).Nodup) ∧
    (∀ (ops : List SrvOp) (f : SrvFile), (runServerOps ops).current = some f →
      f.rows = (runServerOps ops).buffer) ∧
    (∀ (s : SrvState) (p : DataPoint), dedupHit s.buffer p = true →
      dedupLogStep s p = s) ∧
    (∀ (s : SrvState) (act : Bool) (pts : List DataPoint),
      receive_data_step (receive_data_step s (.payload act pts))
        (.payload act pts) = receive_data_step s (.payload act pts)) :=
  ⟨fun ops => (runServerOps_inv ops).1,
    fun ops f hf => (runServerOps_inv ops).2 f hf,
    dedupLogStep_skip,
    receive_payload_idem⟩

/-- C9 witness: a point with an already-buffered (timestamp, address) key,
even with a different sensor value, is dropped without any state change. -/
theorem claim_C9_witness :
    dedupHit ({ initSrvState with
        buffer := [⟨secs 1, "192.168.137.35", "RED", 5, true⟩] } : SrvState).buffer
      ⟨secs 1, "192.168.137.35", "RED", 99, true⟩ = true ∧
    dedupLogStep ({ initSrvState with
        buffer := [⟨secs 1, "192.168.137.35", "RED", 5, true⟩] } : SrvState)
      ⟨secs 1, "192.168.137.35", "RED", 99, true⟩
      = { initSrvState with
          buffer := [⟨secs 1, "192.168.137.35", "RED", 5, true⟩] } :=
  ⟨by decide, claim_C9.2.2.1 _ _ (by decide)⟩

/-- C6 counterexample: a header-only log does not yield an analysis with zero
total points; analyze_log_file returns its structured failure (None) because
no data point was recovered. -/
theorem claim_C6_counterexample :
    ¬ ∃ a : Analysis,
      analyze_log_file c6HeaderOnlyLog = some a ∧ a.total_points = 0 := by
  intro h
  obtain ⟨a, ha, _⟩ := h
  rw [show analyze_log_file c6HeaderOnlyLog = none from by decide] at ha
  cases ha

/-- C6 as amended: analyze_log_file returns its structured failure (None)
whenever no data row parses, and in particular on a header-only log; the
endpoint answers 404 File not found for an absent file before running the
analyzer, and 500 Could not analyze log file when the analyzer fails, so the
two outcomes are distinct, but a header-only log never yields an analysis
reporting zero total points. -/
theorem claim_C6_amended :
    (∀ lines : List (List Char),
      (lines.foldl processLine ⟨false, [], []⟩).points = [] →
      analyze_log_file lines = none) ∧
    analyze_log_file c6HeaderOnlyLog = none ∧
    analyze_log_endpoint none = .failure 404 "File not found" ∧
    (∀ lines : List (List Char), analyze_log_file lines = none →
      analyze_log_endpoint (some lines) = .failure 500 "Could not analyze log file") ∧
    EndpointResult.failure 404 "File not found"
      ≠ EndpointResult.failure 500 "Could not analyze log file" := by
  refine ⟨?_, by decide, rfl, ?_, by decide⟩
  · intro lines h
    unfold analyze_log_file
    simp [h]
  · intro lines h
    unfold analyze_log_endpoint
    simp [h]

/-- C6 witness: the empty-analysis path and the two distinct endpoint
outcomes, on the concrete header-only log. -/
theorem claim_C6_witness :
    (c6HeaderOnlyLog.foldl processLine ⟨false, [], []⟩).points = [] ∧
    analyze_log_file c6HeaderOnlyLog = none ∧
    analyze_log_endpoint (some c6HeaderOnlyLog)
      = .failure 500 "Could not analyze log file" :=
  ⟨by decide,
    claim_C6_amended.1 c6HeaderOnlyLog (by decide),
    claim_C6_amended.2.2.2.1 c6HeaderOnlyLog
      (claim_C6_amended.1 c6HeaderOnlyLog (by decide))⟩

/-- C8: analyze_log_file is a pure function of the file lines (the source
reads the file once and touches no mutable state), so two runs on the same
unmodified file agree on the whole output and on each reported field. -/
theorem claim_C8 (lines : List (List Char)) (a1 a2 : Analysis)
    (h1 : analyze_log_file lines = some a1)
    (h2 : analyze_log_file lines = some a2) :
    a1 = a2 ∧ a1.data_points = a2.data_points ∧
    a1.master_durations = a2.master_durations ∧
    a1.start_time = a2.start_time ∧ a1.end_time = a2.end_time ∧
    a1.total_points = a2.total_points := by
  have h := Option.some.inj (h1.symm.trans h2)
  exact ⟨h, by rw [h], by rw [h], by rw [h], by rw [h], by rw [h]⟩

/-- C8 witness: two runs on the two-row session log both return its analysis
and agree. -/
theorem claim_C8_witness :
    analyze_log_file c7Log1 = some c8Value ∧ c8Value = c8Value :=
  ⟨by decide, (claim_C8 c7Log1 c8Value c8Value (by decide) (by decide)).1⟩

/-- Splitting always yields at least one field. -/
theorem splitOnChar_ne_nil (c : Char) (s : List Char) : splitOnChar c s ≠ [] := by
  cases s with
  | nil => simp [splitOnChar]
  | cons x xs =>
    unfold splitOnChar
    cases h : splitOnChar c xs with
    | nil => simp
    | cons hd tl => by_cases hx : x = c <;> simp [hx]

/-- Joining the split fields with the separator restores the string. -/
theorem intercalate_splitOnChar (c : Char) (s : List Char) :
    intercalateChar c (splitOnChar c s) = s := by
  induction s with
  | nil => rfl
  | cons x xs ih =>
    unfold splitOnChar
    cases h : splitOnChar c xs with
    | nil => exact absurd h (splitOnChar_ne_nil c xs)
    | cons hd tl =>
      rw [h] at ih
      by_cases hx : x = c
      · subst hx
        simp only [if_true]
        calc intercalateChar x ([] :: hd :: tl)
            = x :: intercalateChar x (hd :: tl) := rfl
          _ = x :: xs := by rw [ih]
      · simp only [hx, if_false]
        cases tl with
        | nil =>
          show x :: hd = x :: xs
          rw [show intercalateChar c [hd] = hd from rfl] at ih
          rw [ih]
        | cons t0 t1 =>
          show (x :: hd) ++ c :: intercalateChar c (t0 :: t1) = x :: xs
          rw [List.cons_append]
          exact congrArg (List.cons x) ih

/-- No field of the split contains the separator. -/
theorem splitOnChar_not_mem (c : Char) (s : List Char) :
    ∀ p ∈ splitOnChar c s, c ∉ p := by
  induction s with
  | nil =>
    intro p hp
    simp [splitOnChar] at hp
    simp [hp]
  | cons x xs ih =>
    intro p hp
    unfold splitOnChar at hp
    cases h : splitOnChar c xs with
    | nil => exact absurd h (splitOnChar_ne_nil c xs)
    | cons hd tl =>
      rw [h] at hp
      by_cases hx : x = c
      · simp only [hx, if_true] at hp
        rcases List.mem_cons.mp hp with rfl | hp'
        · simp
        · exact ih p (h ▸ hp')
      · simp only [hx, if_false] at hp
        rcases List.mem_cons.mp hp with rfl | hp'
        · intro hc
          rcases List.mem_cons.mp hc with hc' | hc'
          · exact hx hc'.symm
          · exact ih hd (h ▸ List.mem_cons_self hd tl) hc'
        · exact ih p (h ▸ List.mem_cons_of_mem hd hp')

/-- Joining a head field onto a nonempty rest. -/
theorem intercalate_cons (c : Char) (a : List Char) (as : List (List Char))
    (h : as ≠ []) :
    intercalateChar c (a :: as) = a ++ c :: intercalateChar c as := by
  cases as with
  | nil => exact absurd rfl h
  | cons b bs => rfl

/-- A one-character pattern looks no further than the field before the first
separator. -/
theorem isPrefixOf_single_eq (ch c : Char) (h u v : List Char) :
    List.isPrefixOf [ch] (h ++ c :: u) = List.isPrefixOf [ch] (h ++ c :: v) := by
  cases h with
  | nil => simp [List.isPrefixOf]
  | cons a h' => simp [List.isPrefixOf]

/-- A pattern ending in the separator, with a separator-free stem, matches a
line exactly when the line's first field is the stem. -/
theorem isPrefixOf_append_comma (p' : List Char) :
    ∀ (h u : List Char), (',' : Char) ∉ p' → (',' : Char) ∉ h →
      List.isPrefixOf (p' ++ [',']) (h ++ ',' :: u) = decide (h = p') := by
  induction p' with
  | nil =>
    intro h u _ hh
    cases h with
    | nil => simp [List.isPrefixOf]
    | cons a h' =>
      have ha : ¬ (',' : Char) = a := fun he => hh (he ▸ List.mem_cons_self a h')
      simp [List.isPrefixOf, ha]
  | cons b p'' ih =>
    intro h u hp hh
    have hb : ¬ (b = ',') := fun he => hp (he ▸ List.mem_cons_self b p'')
    cases h with
    | nil =>
      simp [List.isPrefixOf, hb]
    | cons a h' =>
      have hp' : (',' : Char) ∉ p'' := fun hm => hp (List.mem_cons_of_mem b hm)
      have hh' : (',' : Char) ∉ h' := fun hm => hh (List.mem_cons_of_mem a hm)
      show ((b == a) && List.isPrefixOf (p'' ++ [',']) (h' ++ ',' :: u))
          = decide (a :: h' = b :: p'')
      rw [ih h' u hp' hh']
      by_cases hab : b = a
      · subst hab
        by_cases hhp : h' = p'' <;> simp [hhp]
      · have : ¬ (a = b) := fun he => hab he.symm
        simp [hab, this]

/-- Positions inside the shared take of two lists agree. -/
theorem getD_eq_of_take_eq {α : Type} :
    ∀ (n i : Nat) (P Q : List α) (d : α), i < n → P.take n = Q.take n →
      P.getD i d = Q.getD i d := by
  intro n
  induction n with
  | zero => intro i P Q d hi; omega
  | succ n ih =>
    intro i P Q d hi ht
    cases P with
    | nil =>
      cases Q with
      | nil => rfl
      | cons q Q' => simp [List.take] at ht
    | cons p P' =>
      cases Q with
      | nil => simp [List.take] at ht
      | cons q Q' =>
        simp only [List.take] at ht
        injection ht with h1 h2
        cases i with
        | zero => simpa using h1
        | succ j =>
          show P'.getD j d = Q'.getD j d
          exact ih j P' Q' d (by omega) h2

/-- Two lines related by c7LineRel are indistinguishable to the analyzer's
line parser. -/
theorem processLine_rel (l1 l2 : List Char) (hrel : c7LineRel l1 l2)
    (st : ALState) : processLine st l1 = processLine st l2 := by
  rcases hrel with rfl | ⟨ht5, hl1, hl2⟩
  · rfl
  · have hG : ∀ i, i < 5 → (splitOnChar ',' (pyStrip l1)).getD i []
        = (splitOnChar ',' (pyStrip l2)).getD i [] :=
      fun i hi => getD_eq_of_take_eq 5 i _ _ [] hi ht5
    rcases hsp1 : splitOnChar ',' (pyStrip l1) with _ | ⟨x0, t1⟩
    · exact absurd hsp1 (splitOnChar_ne_nil ',' (pyStrip l1))
    rcases hsp2 : splitOnChar ',' (pyStrip l2) with _ | ⟨y0, t2⟩
    · exact absurd hsp2 (splitOnChar_ne_nil ',' (pyStrip l2))
    have hxy : x0 = y0 := by
      have h0 := hG 0 (by omega)
      rw [hsp1, hsp2] at h0
      simpa using h0
    subst hxy
    have hl1' := hsp1 ▸ hl1
    have hl2' := hsp2 ▸ hl2
    have ht1 : t1 ≠ [] := by
      intro h
      rw [h] at hl1'
      simp at hl1'
    have ht2 : t2 ≠ [] := by
      intro h
      rw [h] at hl2'
      simp at hl2'
    have hs1 : pyStrip l1 = x0 ++ ',' :: intercalateChar ',' t1 := by
      conv_lhs => rw [← intercalate_splitOnChar ',' (pyStrip l1)]
      rw [hsp1, intercalate_cons ',' x0 t1 ht1]
    have hs2 : pyStrip l2 = x0 ++ ',' :: intercalateChar ',' t2 := by
      conv_lhs => rw [← intercalate_splitOnChar ',' (pyStrip l2)]
      rw [hsp2, intercalate_cons ',' x0 t2 ht2]
    have hx0 : (',' : Char) ∉ x0 :=
      splitOnChar_not_mem ',' (pyStrip l1) x0
        (by rw [hsp1]; exact List.mem_cons_self x0 t1)
    have cA : List.isPrefixOf "#".toList (pyStrip l1)
        = List.isPrefixOf "#".toList (pyStrip l2) := by
      rw [hs1, hs2]
      exact isPrefixOf_single_eq '#' ',' x0 _ _
    have cN1 : pyStrip l1 ≠ [] := by rw [hs1]; simp
    have cN2 : pyStrip l2 ≠ [] := by rw [hs2]; simp
    have cT : List.isPrefixOf "timestamp,".toList (pyStrip l1)
        = List.isPrefixOf "timestamp,".toList (pyStrip l2) := by
      rw [hs1, hs2,
        show "timestamp,".toList = "timestamp".toList ++ [','] from rfl,
        isPrefixOf_append_comma "timestamp".toList x0 _ (by decide) hx0,
        isPrefixOf_append_comma "timestamp".toList x0 _ (by decide) hx0]
    have cC1 : (',' : Char) ∈ pyStrip l1 := by rw [hs1]; simp
    have cC2 : (',' : Char) ∈ pyStrip l2 := by rw [hs2]; simp
    have cL1 : 5 ≤ (splitOnChar ',' (pyStrip l1)).length := by
      rw [hsp1]
      rw [hsp1] at hl1
      omega
    have cL2 : 5 ≤ (splitOnChar ',' (pyStrip l2)).length := by
      rw [hsp2]
      rw [hsp2] at hl2
      omega
    simp only [processLine]
    by_cases h1 : List.isPrefixOf "#".toList (pyStrip l1) = true ∨ pyStrip l1 = []
    · have h1' : List.isPrefixOf "#".toList (pyStrip l2) = true ∨ pyStrip l2 = [] := by
        rcases h1 with h | h
        · exact Or.inl (cA ▸ h)
        · exact absurd h cN1
      rw [if_pos h1, if_pos h1']
    · have h1' : ¬(List.isPrefixOf "#".toList (pyStrip l2) = true ∨ pyStrip l2 = []) := by
        rintro (h | h)
        · exact h1 (Or.inl (cA ▸ h))
        · exact cN2 h
      rw [if_neg h1, if_neg h1']
      by_cases h2 : List.isPrefixOf "timestamp,".toList (pyStrip l1) = true
      · rw [if_pos h2, if_pos (cT ▸ h2)]
      · have h2' : ¬ List.isPrefixOf "timestamp,".toList (pyStrip l2) = true :=
          fun hh => h2 (by rw [cT]; exact hh)
        rw [if_neg h2, if_neg h2']
        by_cases h3 : st.inData = true ∧ (',' : Char) ∈ pyStrip l1
        · have h3' : st.inData = true ∧ (',' : Char) ∈ pyStrip l2 := ⟨h3.1, cC2⟩
          rw [if_pos h3, if_pos h3']
          rw [if_pos cL1, if_pos cL2]
          rw [hG 3 (by omega), hG 0 (by omega), hG 1 (by omega), hG 2 (by omega),
            hG 4 (by omega)]
        · have h3' : ¬(st.inData = true ∧ (',' : Char) ∈ pyStrip l2) :=
          fun hh => h3 ⟨hh.1, cC1⟩
          rw [if_neg h3, if_neg h3']

/-- Line-wise related files parse to the same state. -/
theorem foldl_processLine_rel (lines1 lines2 : List (List Char))
    (h : List.Forall₂ c7LineRel lines1 lines2) :
    ∀ st, lines1.foldl processLine st = lines2.foldl processLine st := by
  induction h with
  | nil => intro st; rfl
  | cons hrel hrest ih =>
    intro st
    simp only [List.foldl_cons]
    rw [processLine_rel _ _ hrel st]
    exact ih _

/-- C7: two log files whose lines agree except in the sixth
(master_duration_seconds) field and beyond of data rows produce the same
analysis output, master durations included: the analyzer reads only the first
five fields of each data row, so the stored running-duration column is never
trusted. -/
theorem claim_C7 (lines1 lines2 : List (List Char))
    (h : List.Forall₂ c7LineRel lines1 lines2) :
    analyze_log_file lines1 = analyze_log_file lines2 := by
  unfold analyze_log_file
  rw [foldl_processLine_rel lines1 lines2 h]

/-- C7 witness: the two-row session log and the same log with its
master_duration_seconds column overwritten by unrelated text analyze
identically. -/
theorem claim_C7_witness :
    List.Forall₂ c7LineRel c7Log1 c7Log2 ∧
    analyze_log_file c7Log1 = analyze_log_file c7Log2 := by
  have hf : List.Forall₂ c7LineRel c7Log1 c7Log2 := by
    unfold c7Log1 c7Log2
    refine List.Forall₂.cons (Or.inl rfl) ?_
    refine List.Forall₂.cons (Or.inl rfl) ?_
    refine List.Forall₂.cons (Or.inr (by decide)) ?_
    refine List.Forall₂.cons (Or.inr (by decide)) ?_
    exact List.Forall₂.nil
  exact ⟨hf, claim_C7 c7Log1 c7Log2 hf⟩
